import Mathlib

/-
  Verification of the ppm package-manager core (src/bin/ppm.js).

  The JavaScript source is shallowly embedded: the specifier parser,
  the semver range predicate, the version resolver, the recursive
  dependency walker (installPackage) and the command entry points are
  translated into executable Lean definitions.  Network and file-system
  effects are made explicit: an Env value supplies the registry and the
  archive downloads, and a St record carries the lock file, the module
  directory, the cache directory and logs of the performed effects.
-/

namespace Ppm

/-! ## String helpers (kernel-reducible models of the JS string operations) -/

/-- Model of JS String.prototype.split with a single-character separator:
accumulates characters until the separator and emits the pieces. -/
def splitCharAux (sep : Char) : List Char → List Char → List String
  | acc, [] => [String.mk acc.reverse]
  | acc, c :: cs =>
    if c = sep then String.mk acc.reverse :: splitCharAux sep [] cs
    else splitCharAux sep (c :: acc) cs

/-- JS s.split(sep) for a one-character separator. -/
def splitOnChar (sep : Char) (s : String) : List String :=
  splitCharAux sep [] s.toList

/-- Boolean test that the first character list leads the second one. -/
def charsLead : List Char → List Char → Bool
  | [], _ => true
  | _ :: _, [] => false
  | a :: as, b :: bs => if a = b then charsLead as bs else false

/-- JS s.startsWith(p). -/
def strStartsWith (s p : String) : Bool :=
  charsLead p.toList s.toList

/-- JS s.slice(1) (all specifier characters in play are ASCII). -/
def strDrop1 (s : String) : String :=
  String.mk (s.toList.drop 1)

/-- Membership of a string in a list (model of Set.has / Array.includes). -/
def memStr (x : String) : List String → Bool
  | [] => false
  | y :: ys => if y = x then true else memStr x ys

/-- Association-list lookup; model of reading a JS object property. -/
def lookupKey {β : Type} (k : String) : List (String × β) → Option β
  | [] => none
  | kv :: rest => if kv.1 = k then some kv.2 else lookupKey k rest

/-! ## Specifier parsing (installPackage lines 140-145) -/

/-- Translation of the parsing at the start of installPackage:
let [pkg, range] = pkgSpec.split(at-sign); if (pkg === '' and range is
truthy) re-join the first remaining component behind the at-sign and set
range to undefined.  Components after the second one are dropped by the
JS array destructuring. -/
def parseSpec (s : String) : String × Option String :=
  match splitOnChar '@' s with
  | [] => ("", none)
  | [p] => (p, none)
  | p :: r :: _ =>
    if p = "" ∧ ¬ (r = "") then ("@" ++ r, none) else (p, some r)

/-! ## semverSatisfies (lines 124-136) -/

/-- Translation of semverSatisfies.  The tilde branch reproduces the JS
string concatenation with an undefined minor component: for a range such
as "~1" the JS expression major + '.' + minor + '.' evaluates to
"1.undefined.". -/
def semverSatisfies (version range : String) : Bool :=
  if range = "" ∨ range = "latest" then true
  else if strStartsWith range "^" then
    let major := (splitOnChar '.' (strDrop1 range)).headD ""
    strStartsWith version (major ++ ".")
  else if strStartsWith range "~" then
    let parts := splitOnChar '.' (strDrop1 range)
    let major := parts.headD ""
    let minor := match parts with
      | _ :: m :: _ => m
      | _ => "undefined"
    strStartsWith version (major ++ "." ++ minor ++ ".")
  else if version = range then true else false

/-! ## Numeric-aware descending sort (line 189)

The source sorts the version keys with
sort((a, b) => b.localeCompare(a, undefined, numeric)) — a descending
numeric-aware order: maximal digit runs compare as numbers, other
characters by code point. -/

/-- Numeric value of a digit run. -/
def digitsVal (cs : List Char) : Nat :=
  cs.foldl (fun n c => n * 10 + (c.toNat - 48)) 0

/-- Tokenizer for numeric-aware collation: maximal digit runs become
numbers, every other character stands for itself.  The accumulator holds
the digit run currently being read. -/
def tokenizeAux : Option Nat → List Char → List (Nat ⊕ Char)
  | acc, [] =>
    match acc with
    | none => []
    | some n => [Sum.inl n]
  | acc, c :: cs =>
    if c.isDigit then
      tokenizeAux (some ((acc.getD 0) * 10 + (c.toNat - 48))) cs
    else
      match acc with
      | none => Sum.inr c :: tokenizeAux none cs
      | some n => Sum.inl n :: Sum.inr c :: tokenizeAux none cs

/-- Token list of a string under numeric-aware collation. -/
def tokenize (s : String) : List (Nat ⊕ Char) :=
  tokenizeAux none s.toList

/-- Comparison of single collation tokens. -/
def cmpTok : Nat ⊕ Char → Nat ⊕ Char → Ordering
  | Sum.inl n, Sum.inl m => compare n m
  | Sum.inl _, Sum.inr _ => Ordering.lt
  | Sum.inr _, Sum.inl _ => Ordering.gt
  | Sum.inr a, Sum.inr b => compare a b

/-- Lexicographic comparison of token lists. -/
def cmpToks : List (Nat ⊕ Char) → List (Nat ⊕ Char) → Ordering
  | [], [] => Ordering.eq
  | [], _ :: _ => Ordering.lt
  | _ :: _, [] => Ordering.gt
  | t :: ts, u :: us =>
    match cmpTok t u with
    | Ordering.eq => cmpToks ts us
    | o => o

/-- Numeric-aware comparison of two strings (model of localeCompare with
the numeric option). -/
def cmpNA (a b : String) : Ordering :=
  cmpToks (tokenize a) (tokenize b)

/-- Insertion into a descending list. -/
def insertDesc (x : String) : List String → List String
  | [] => [x]
  | y :: ys => if cmpNA x y = Ordering.gt then x :: y :: ys else y :: insertDesc x ys

/-- Descending numeric-aware sort: model of
sort((a, b) => b.localeCompare(a, undefined, numeric)). -/
def sortDesc : List String → List String
  | [] => []
  | x :: xs => insertDesc x (sortDesc xs)

/-! ## Registry metadata and version resolution (lines 185-196) -/

/-- The per-version registry data the walker consumes: the tarball URL
and the dependencies found in the extracted package manifest. -/
structure VersionInfo where
  tarball : String
  dependencies : List (String × String)
deriving DecidableEq, Repr

/-- Registry metadata: dist-tags.latest and the versions mapping. -/
structure RegMeta where
  latest : String
  versions : List (String × VersionInfo)
deriving DecidableEq, Repr

/-- Version resolution as performed in installPackage: an absent, empty
or "latest" range yields dist-tags.latest; otherwise the version keys
are sorted descending (numeric-aware) and the first one satisfying the
range is chosen; none signals the no-version error branch. -/
def resolveVersion (meta : RegMeta) (range : Option String) : Option String :=
  match range with
  | none => some meta.latest
  | some r =>
    if r = "" ∨ r = "latest" then some meta.latest
    else (sortDesc (meta.versions.map Prod.fst)).find? (fun v => semverSatisfies v r)

/-! ## Effect environment and state -/

/-- Outcome of fetching a tarball URL: an ok response whose body streams
to completion, a not-ok response, or a response whose body stream errors
partway through. -/
inductive DlResult
  | ok
  | notOk
  | streamError
deriving DecidableEq, Repr

/-- The external collaborators of the walker: the registry (none models
a not-ok metadata response or an unreachable registry, both of which the
walker handles identically by aborting the branch), the tarball
downloads, and whether ppm.json configures a cache directory. -/
structure Env where
  registry : String → Option RegMeta
  download : String → DlResult
  cacheEnabled : Bool

/-- Observable state: the lock-file dependencies mapping, the per-run
session set (installedSet), the module-directory entries, the completed
extractions, the cache-directory files (flag true when the write
finished, false for a partially written file), the attempted metadata
fetches, the attempted tarball downloads, and the number of lock-file
writes. -/
structure St where
  lock : List (String × String)
  session : List String
  moduleDirs : List String
  extracted : List (String × String)
  cacheFiles : List (String × Bool)
  metaFetches : List String
  tarFetches : List String
  lockWrites : Nat
deriving DecidableEq, Repr

/-- Initial state for a command invocation. -/
def mkSt (lock : List (String × String)) (dirs : List String)
    (cache : List (String × Bool)) : St :=
  ⟨lock, [], dirs, [], cache, [], [], 0⟩

/-- Set insertion (installedSet.add). -/
def sessAdd (s : List String) (pkg : String) : List String :=
  if memStr pkg s then s else pkg :: s

/-- mkdir-if-absent of a module directory. -/
def addDir (dirs : List String) (pkg : String) : List String :=
  if memStr pkg dirs then dirs else dirs ++ [pkg]

/-- JS object property assignment lock.dependencies[pkg] = version:
overwrite in place when the key exists, append otherwise. -/
def setDep (l : List (String × String)) (k v : String) : List (String × String) :=
  if (lookupKey k l).isSome then
    l.map (fun kv => if kv.1 = k then (k, v) else kv)
  else l ++ [(k, v)]

/-- JS delete obj[k]. -/
def eraseKey (l : List (String × String)) (k : String) : List (String × String) :=
  l.filter (fun kv => if kv.1 = k then false else true)

/-- rmSync of a directory entry. -/
def rmDir (dirs : List String) (d : String) : List String :=
  dirs.filter (fun x => if x = d then false else true)

/-- Filesystem-safe cache name: scope separators replaced by a double
underscore (pkg.replace of every slash), suffixed with the version and
the tgz extension. -/
def safeName (s : String) : String :=
  String.mk (s.toList.foldr (fun c acc => if c = '/' then '_' :: '_' :: acc else c :: acc) [])

/-- Cache file name for a package at a version. -/
def cacheKey (pkg version : String) : String :=
  safeName pkg ++ "-" ++ version ++ ".tgz"

/-! ## The dependency walker (installPackage, lines 138-294)

The recursion is indexed by fuel; the JS recursion terminates because
the session and lock checks cut cycles, so every run is reproduced
exactly by any sufficiently large fuel.  All error branches of the
source (not-found registry response, no matching version, missing
version entry, failed or erroring download, failed extraction) return
the state reached so far: the try/catch at the bottom of installPackage
confines the failure to the current branch. -/

def installPackage (env : Env) : Nat → String → St → St
  | 0, _, st => st
  | f + 1, spec, st =>
    if (lookupKey (parseSpec spec).1 st.lock).isSome then
      { st with session := sessAdd st.session (parseSpec spec).1 }
    else
      let pkg := (parseSpec spec).1
      let st1 := { st with metaFetches := st.metaFetches ++ [pkg] }
      match env.registry pkg with
      | none => st1
      | some meta =>
        match resolveVersion meta (parseSpec spec).2 with
        | none => st1
        | some version =>
          match lookupKey version meta.versions with
          | none => st1
          | some vi =>
            if env.cacheEnabled then
              match lookupKey (cacheKey pkg version) st1.cacheFiles with
              | some complete =>
                if complete then
                  let st3 := { st1 with
                    moduleDirs := addDir st1.moduleDirs pkg,
                    extracted := st1.extracted ++ [(pkg, version)],
                    lock := setDep st1.lock pkg version,
                    lockWrites := st1.lockWrites + 1 }
                  let st4 := { st3 with session := sessAdd st3.session pkg }
                  vi.dependencies.foldl
                    (fun s d =>
                      if memStr d.1 s.session then s
                      else installPackage env f (d.1 ++ "@" ++ d.2) s) st4
                else { st1 with moduleDirs := addDir st1.moduleDirs pkg }
              | none =>
                let st2 := { st1 with tarFetches := st1.tarFetches ++ [vi.tarball] }
                match env.download vi.tarball with
                | DlResult.notOk => st2
                | DlResult.streamError =>
                  { st2 with cacheFiles := st2.cacheFiles ++ [(cacheKey pkg version, false)] }
                | DlResult.ok =>
                  let st3 := { st2 with
                    cacheFiles := st2.cacheFiles ++ [(cacheKey pkg version, true)],
                    moduleDirs := addDir st2.moduleDirs pkg,
                    extracted := st2.extracted ++ [(pkg, version)],
                    lock := setDep st2.lock pkg version,
                    lockWrites := st2.lockWrites + 1 }
                  let st4 := { st3 with session := sessAdd st3.session pkg }
                  vi.dependencies.foldl
                    (fun s d =>
                      if memStr d.1 s.session then s
                      else installPackage env f (d.1 ++ "@" ++ d.2) s) st4
            else
              let st2 := { st1 with tarFetches := st1.tarFetches ++ [vi.tarball] }
              match env.download vi.tarball with
              | DlResult.notOk => st2
              | DlResult.streamError => { st2 with moduleDirs := addDir st2.moduleDirs pkg }
              | DlResult.ok =>
                let st3 := { st2 with
                  moduleDirs := addDir st2.moduleDirs pkg,
                  extracted := st2.extracted ++ [(pkg, version)],
                  lock := setDep st2.lock pkg version,
                  lockWrites := st2.lockWrites + 1 }
                let st4 := { st3 with session := sessAdd st3.session pkg }
                vi.dependencies.foldl
                  (fun s d =>
                    if memStr d.1 s.session then s
                    else installPackage env f (d.1 ++ "@" ++ d.2) s) st4

/-! ## Command entry points (install / update / upgrade / uninstall)

The prisma.lock file on disk is absent, malformed JSON, or a good
dependencies mapping.  A malformed file makes JSON.parse throw: the
update and upgrade actions catch it and exit 1, and in the install
action the throw escapes the async action as an unhandled rejection,
which also terminates the process with a non-zero (1) code. -/

inductive LockFile
  | absent
  | malformed
  | good (deps : List (String × String))
deriving DecidableEq, Repr

/-- Dependencies read permissively from an absent-or-good lock file. -/
def lockDeps : LockFile → List (String × String)
  | LockFile.absent => []
  | LockFile.malformed => []
  | LockFile.good d => d

/-- State produced by the install action (lines 297-318) once the lock
file has parsed: with a package argument a single walk, without one a
walk per lock entry re-joined as name at-sign version, over a snapshot
of the entries. -/
def installCmdSt (env : Env) (F : Nat) (deps : List (String × String))
    (dirs : List String) (cache : List (String × Bool)) (arg : Option String) : St :=
  let st0 := mkSt deps dirs cache
  match arg with
  | some p => installPackage env F p st0
  | none =>
    if deps.length = 0 then st0
    else deps.foldl (fun s kv => installPackage env F (kv.1 ++ "@" ++ kv.2) s) st0

/-- Exit code and final state of the install action. -/
def installCmd (env : Env) (F : Nat) (lf : LockFile) (dirs : List String)
    (cache : List (String × Bool)) (arg : Option String) : Nat × St :=
  match lf with
  | LockFile.malformed => (1, mkSt [] dirs cache)
  | LockFile.absent => (0, installCmdSt env F [] dirs cache arg)
  | LockFile.good d => (0, installCmdSt env F d dirs cache arg)

/-- State produced by the update action (lines 48-72): remove the old
directory and lock entry when present (writing the lock), then walk the
bare package name. -/
def updateCmdSt (env : Env) (F : Nat) (deps : List (String × String))
    (dirs : List String) (cache : List (String × Bool)) (pkg : String) : St :=
  let st0 :=
    if (lookupKey pkg deps).isSome then
      { mkSt (eraseKey deps pkg) (rmDir dirs pkg) cache with lockWrites := 1 }
    else mkSt deps dirs cache
  installPackage env F pkg st0

/-- Exit code and final state of the update action: its try/catch exits
1 only when a step outside installPackage throws (the walker catches its
own errors), and otherwise exits 0. -/
def updateCmd (env : Env) (F : Nat) (lf : LockFile) (dirs : List String)
    (cache : List (String × Bool)) (pkg : String) : Nat × St :=
  match lf with
  | LockFile.malformed => (1, mkSt [] dirs cache)
  | LockFile.absent => (0, updateCmdSt env F [] dirs cache pkg)
  | LockFile.good d => (0, updateCmdSt env F d dirs cache pkg)

/-- State produced by the upgrade action (lines 74-103): for every name
in the initial lock snapshot, reset the session, remove the directory
and lock entry, write the lock, and walk the bare name. -/
def upgradeCmdSt (env : Env) (F : Nat) (deps : List (String × String))
    (dirs : List String) (cache : List (String × Bool)) : St :=
  if deps.length = 0 then mkSt deps dirs cache
  else
    (deps.map Prod.fst).foldl
      (fun s pkg =>
        installPackage env F pkg
          { s with
            session := [],
            moduleDirs := rmDir s.moduleDirs pkg,
            lock := eraseKey s.lock pkg,
            lockWrites := s.lockWrites + 1 })
      (mkSt deps dirs cache)

/-- Exit code and final state of the upgrade action. -/
def upgradeCmd (env : Env) (F : Nat) (lf : LockFile) (dirs : List String)
    (cache : List (String × Bool)) : Nat × St :=
  match lf with
  | LockFile.malformed => (1, mkSt [] dirs cache)
  | LockFile.absent => (0, upgradeCmdSt env F [] dirs cache)
  | LockFile.good d => (0, upgradeCmdSt env F d dirs cache)

/-- Result of the uninstall action: the lock file left on disk, the
module-directory entries left after the prune pass, whether the target
directory existed, and the number of pruned directories. -/
structure UninstallResult where
  lock : LockFile
  dirs : List String
  removed : Bool
  pruned : Nat
deriving DecidableEq, Repr

/-- Translation of the uninstall action (lines 322-366): remove the
target directory, delete the entry from a parsable lock file and write
it back, then prune every remaining module directory whose name is not
among the remaining lock keys.  A malformed lock file makes JSON.parse
throw after the directory removal; the catch reports and nothing else
runs. -/
def uninstallCmd (lf : LockFile) (dirs : List String) (pkg : String) : UninstallResult :=
  let removed := memStr pkg dirs
  let dirs1 := rmDir dirs pkg
  match lf with
  | LockFile.malformed => ⟨LockFile.malformed, dirs1, removed, 0⟩
  | LockFile.absent =>
    let keep : List String := []
    ⟨LockFile.absent, dirs1.filter (fun d => memStr d keep),
      removed, (dirs1.filter (fun d => ! memStr d keep)).length⟩
  | LockFile.good deps =>
    let deps1 := eraseKey deps pkg
    let keep := deps1.map Prod.fst
    ⟨LockFile.good deps1, dirs1.filter (fun d => memStr d keep),
      removed, (dirs1.filter (fun d => ! memStr d keep)).length⟩

/-! ## Concrete environments used in the theorems below -/

/-- An empty registry with failing downloads and no cache. -/
def envNone : Env := ⟨fun _ => none, fun _ => DlResult.notOk, false⟩

/-- Registry for the version-resolution examples: dist-tags.latest
deliberately names 1.0.0 while the numerically higher 2.0.0 exists. -/
def metaC2 : RegMeta :=
  ⟨"1.0.0", [("1.0.0", ⟨"t1", []⟩), ("1.2.0", ⟨"t2", []⟩), ("2.0.0", ⟨"t3", []⟩)]⟩

/-- A tree whose top package depends on a package the registry lacks, a
package whose download stream errors, and a healthy sibling. -/
def envC3 : Env :=
  ⟨fun n =>
    if n = "t" then
      some ⟨"1.0.0", [("1.0.0", ⟨"ut", [("bad", "1.0.0"), ("dlbad", "1.0.0"), ("good", "1.0.0")]⟩)]⟩
    else if n = "bad" then none
    else if n = "dlbad" then some ⟨"1.0.0", [("1.0.0", ⟨"udl", []⟩)]⟩
    else if n = "good" then some ⟨"1.0.0", [("1.0.0", ⟨"ug", []⟩)]⟩
    else none,
   fun u => if u = "udl" then DlResult.streamError else DlResult.ok, false⟩

/-- A single dependency-free package that installs cleanly. -/
def envC4 : Env :=
  ⟨fun n => if n = "p" then some ⟨"1.0.0", [("1.0.0", ⟨"tp", []⟩)]⟩ else none,
   fun _ => DlResult.ok, false⟩

/-- Two packages depending on each other. -/
def envC5 : Env :=
  ⟨fun n =>
    if n = "a" then some ⟨"1.0.0", [("1.0.0", ⟨"ta", [("b", "1.0.0")]⟩)]⟩
    else if n = "b" then some ⟨"1.0.0", [("1.0.0", ⟨"tb", [("a", "1.0.0")]⟩)]⟩
    else none,
   fun _ => DlResult.ok, false⟩

/-- Caching enabled and every download stream errors partway through. -/
def envC6 : Env :=
  ⟨fun n => if n = "p" then some ⟨"1.0.0", [("1.0.0", ⟨"tp", []⟩)]⟩ else none,
   fun _ => DlResult.streamError, true⟩

/-! ## Shared lemmas -/

/-- A specifier whose parsed name already holds a lock entry makes the
walker mark the session and return with nothing else changed. -/
theorem install_lockHit_eq (env : Env) (f : Nat) (spec : String) (st : St)
    (h : (lookupKey (parseSpec spec).1 st.lock).isSome = true) :
    installPackage env (f + 1) spec st
      = { st with session := sessAdd st.session (parseSpec spec).1 } := by
  simp [installPackage, h]

/-- A branch that fails at the metadata stage (not-found registry
response, or no version satisfying the range) only logs the attempted
fetch: lock, session, module directory and extraction record are all
left as they were. -/
theorem install_metaFail_eq (env : Env) (f : Nat) (spec : String) (st : St)
    (hl : lookupKey (parseSpec spec).1 st.lock = none)
    (hr : env.registry (parseSpec spec).1 = none ∨
      ∃ m, env.registry (parseSpec spec).1 = some m ∧
        resolveVersion m (parseSpec spec).2 = none) :
    installPackage env (f + 1) spec st
      = { st with metaFetches := st.metaFetches ++ [(parseSpec spec).1] } := by
  rcases hr with hr | ⟨m, hm, hres⟩
  · simp [installPackage, hl, hr]
  · simp [installPackage, hl, hm, hres]

/-- Membership of an entry in an association list makes the lookup of
its key succeed. -/
theorem mem_lookupKey_isSome {β : Type} (kv : String × β) :
    ∀ l : List (String × β), kv ∈ l → (lookupKey kv.1 l).isSome = true := by
  intro l hmem
  induction l with
  | nil => cases hmem
  | cons hd tl ih =>
    by_cases hk : hd.1 = kv.1
    · simp [lookupKey, hk]
    · rcases List.mem_cons.mp hmem with heq | htl
      · exact absurd (heq ▸ rfl) hk
      · simp [lookupKey, hk, ih htl]

/-- Walking a list of specifiers that all hit the lock only accumulates
session marks. -/
theorem foldl_lockHit (env : Env) (f : Nat) :
    ∀ (entries : List (String × String)) (st : St),
      (∀ kv, kv ∈ entries → (parseSpec (kv.1 ++ "@" ++ kv.2)).1 = kv.1 ∧
        (lookupKey kv.1 st.lock).isSome = true) →
      entries.foldl (fun s kv => installPackage env (f + 1) (kv.1 ++ "@" ++ kv.2) s) st
        = { st with session := entries.foldl (fun ss kv => sessAdd ss kv.1) st.session } := by
  intro entries
  induction entries with
  | nil => intro st _; simp
  | cons kv rest ih =>
    intro st h
    have h1 := h kv (List.mem_cons_self kv rest)
    rw [List.foldl_cons, List.foldl_cons]
    rw [install_lockHit_eq env f _ st (by rw [h1.1]; exact h1.2)]
    rw [h1.1]
    exact ih _ (fun kv' hkv' => ⟨(h kv' (List.mem_cons_of_mem _ hkv')).1,
      (h kv' (List.mem_cons_of_mem _ hkv')).2⟩)

/-- Filtering by membership in the empty keep-set removes everything. -/
theorem filter_memStr_nil (l : List String) :
    l.filter (fun d => memStr d []) = [] := by
  induction l with
  | nil => rfl
  | cons hd tl ih => simp [List.filter, memStr, ih]

/-! ## Claim theorems -/

/-- Claim C1: the specifier parser is claimed to recover (name, range)
for every valid specifier, with a scoped specifier parsing to the pair
of the scoped name and the range.  The code instead discards the range
of every scoped specifier: the destructuring keeps only the first two
split components, and the scope re-join sets the range to undefined, so
a scoped package pinned to a version is resolved as latest.  Unscoped
specifiers round-trip as claimed. -/
theorem parseSpec_scoped_drops_range :
    parseSpec "@scope/pkg@1.0.0" = ("@scope/pkg", none) ∧
    parseSpec "@scope/pkg" = ("@scope/pkg", none) ∧
    parseSpec "pkg@1.0.0" = ("pkg", some "1.0.0") := by
  decide

/-- Claim C2: over the version set 1.0.0, 1.2.0, 2.0.0 the resolver
selects 1.2.0 for the caret-1 range and 1.0.0 for the tilde-1.0 range,
and for a latest or absent range it returns the dist-tags.latest entry
(here 1.0.0) even though the numerically higher 2.0.0 exists. -/
theorem resolveVersion_examples :
    resolveVersion metaC2 (some "^1") = some "1.2.0" ∧
    resolveVersion metaC2 (some "~1.0") = some "1.0.0" ∧
    resolveVersion metaC2 (some "latest") = some "1.0.0" ∧
    resolveVersion metaC2 none = some "1.0.0" := by
  decide

/-- Claim C3: a failing branch is confined.  Generally, a branch whose
registry fetch is not-found or whose range no version satisfies returns
the caller's state with only the attempted fetch logged; concretely, a
tree whose top package depends on a not-found package, a package whose
download stream errors, and a healthy package still installs the top
package and the healthy sibling, yielding a partial tree. -/
theorem install_failure_branch_local :
    (∀ env f spec st,
      lookupKey (parseSpec spec).1 st.lock = none →
      (env.registry (parseSpec spec).1 = none ∨
        ∃ m, env.registry (parseSpec spec).1 = some m ∧
          resolveVersion m (parseSpec spec).2 = none) →
      installPackage env (f + 1) spec st
        = { st with metaFetches := st.metaFetches ++ [(parseSpec spec).1] }) ∧
    ((installPackage envC3 3 "t" (mkSt [] [] [])).lock
        = [("t", "1.0.0"), ("good", "1.0.0")] ∧
      (installPackage envC3 3 "t" (mkSt [] [] [])).extracted
        = [("t", "1.0.0"), ("good", "1.0.0")] ∧
      (installPackage envC3 3 "t" (mkSt [] [] [])).metaFetches
        = ["t", "bad", "dlbad", "good"]) := by
  exact ⟨fun env f spec st hl hr => install_metaFail_eq env f spec st hl hr,
    by decide, by decide, by decide⟩

/-- Witness for claim C3 at a concrete input. -/
theorem install_failure_branch_local_witness :
    lookupKey (parseSpec "q").1 (mkSt [] [] []).lock = none ∧
    installPackage envNone 1 "q" (mkSt [] [] [])
      = { (mkSt [] [] []) with
          metaFetches := (mkSt [] [] []).metaFetches ++ [(parseSpec "q").1] } :=
  ⟨rfl, install_failure_branch_local.1 envNone 0 "q" (mkSt [] [] []) rfl (Or.inl rfl)⟩

/-- Claim C4: a package already in the lock makes the walker mark the
session and return, with no fetch, download, extraction or lock write,
whatever the requested range; and concretely a second install of the
same package within a session is a no-op after the first one performed
exactly one metadata fetch, one download and one extraction. -/
theorem install_lock_hit_idempotent :
    (∀ env f spec st v,
      lookupKey (parseSpec spec).1 st.lock = some v →
      installPackage env (f + 1) spec st
        = { st with session := sessAdd st.session (parseSpec spec).1 }) ∧
    ((installPackage envC4 2 "p" (mkSt [] [] [])).metaFetches = ["p"] ∧
      (installPackage envC4 2 "p" (mkSt [] [] [])).tarFetches = ["tp"] ∧
      (installPackage envC4 2 "p" (mkSt [] [] [])).extracted = [("p", "1.0.0")] ∧
      installPackage envC4 2 "p" (installPackage envC4 2 "p" (mkSt [] [] []))
        = installPackage envC4 2 "p" (mkSt [] [] [])) := by
  refine ⟨fun env f spec st v h => install_lockHit_eq env f spec st ?_, by decide,
    by decide, by decide, by decide⟩
  rw [h]; rfl

/-- Witness for claim C4 at a concrete input. -/
theorem install_lock_hit_idempotent_witness :
    lookupKey (parseSpec "p").1 (mkSt [("p", "1.0.0")] [] []).lock = some "1.0.0" ∧
    installPackage envC4 1 "p" (mkSt [("p", "1.0.0")] [] [])
      = { (mkSt [("p", "1.0.0")] [] []) with
          session := sessAdd (mkSt [("p", "1.0.0")] [] []).session (parseSpec "p").1 } :=
  ⟨rfl, install_lock_hit_idempotent.1 envC4 0 "p" _ "1.0.0" rfl⟩

/-- Claim C5: installing package a, where a depends on b and b depends
on a, terminates (the result is the same for every sufficient fuel) and
fetches, extracts and records each of the two packages exactly once. -/
theorem install_circular_once :
    ∀ f, installPackage envC5 (f + 2) "a" (mkSt [] [] []) =
      ⟨[("a", "1.0.0"), ("b", "1.0.0")], ["b", "a"], ["a", "b"],
        [("a", "1.0.0"), ("b", "1.0.0")], [], ["a", "b"], ["ta", "tb"], 2⟩ := by
  intro f
  rfl

/-- Witness for claim C5 at the smallest sufficient fuel. -/
theorem install_circular_once_witness :
    installPackage envC5 2 "a" (mkSt [] [] []) =
      ⟨[("a", "1.0.0"), ("b", "1.0.0")], ["b", "a"], ["a", "b"],
        [("a", "1.0.0"), ("b", "1.0.0")], [], ["a", "b"], ["ta", "tb"], 2⟩ :=
  install_circular_once 0

/-- Claim C6 (code_bug evidence): when the cache is enabled and the
download stream into the cache file errors, the partially written file
stays in the cache directory, the existence check of a later install of
the same package and version treats it as a hit, and that later install
performs no new download. -/
theorem cache_partial_left_behind :
    (installPackage envC6 1 "p" (mkSt [] [] [])).cacheFiles = [("p-1.0.0.tgz", false)] ∧
    (lookupKey (cacheKey "p" "1.0.0")
        (installPackage envC6 1 "p" (mkSt [] [] [])).cacheFiles).isSome = true ∧
    (installPackage envC6 1 "p" (mkSt [] [] [])).lock = [] ∧
    (installPackage envC6 1 "p" (installPackage envC6 1 "p" (mkSt [] [] []))).tarFetches
      = (installPackage envC6 1 "p" (mkSt [] [] [])).tarFetches := by
  decide

/-- Claim C7: uninstalling a, with lock entries for a and b and module
directories a, b and the orphaned c, removes the a directory, deletes a
from the lock, prunes c, and leaves b untouched. -/
theorem uninstall_prune_example :
    uninstallCmd (LockFile.good [("a", "1.0.0"), ("b", "1.0.0")]) ["a", "b", "c"] "a"
      = ⟨LockFile.good [("b", "1.0.0")], ["b"], true, 1⟩ := by
  decide

/-- Claim C8 counterexample: installing or updating a package the
registry does not have exits with code 0, not 1 — the walker catches
the failure, so the entry points complete normally. -/
theorem exit_code_claim_false :
    ¬ ((installCmd envNone 1 LockFile.absent [] [] (some "x")).1 = 1) ∧
    ¬ ((updateCmd envNone 1 LockFile.absent [] [] "x").1 = 1) := by
  decide

/-- Claim C8 as amended: install, update and upgrade exit 0 whenever
the steps outside installPackage complete — including when the
top-level package is absent from the registry or the registry is
unreachable, since the walker catches those failures — and exit 1 only
when a step outside the walker throws, such as a malformed lock file. -/
theorem exit_codes_amended :
    (∀ env F lf dirs cache pkg, ¬ lf = LockFile.malformed →
      (updateCmd env F lf dirs cache pkg).1 = 0) ∧
    (∀ env F lf dirs cache arg, ¬ lf = LockFile.malformed →
      (installCmd env F lf dirs cache arg).1 = 0) ∧
    (∀ env F lf dirs cache, ¬ lf = LockFile.malformed →
      (upgradeCmd env F lf dirs cache).1 = 0) ∧
    (∀ env F dirs cache pkg, (updateCmd env F LockFile.malformed dirs cache pkg).1 = 1) ∧
    (∀ env F dirs cache arg, (installCmd env F LockFile.malformed dirs cache arg).1 = 1) ∧
    (∀ env F dirs cache, (upgradeCmd env F LockFile.malformed dirs cache).1 = 1) := by
  refine ⟨?_, ?_, ?_, fun _ _ _ _ _ => rfl, fun _ _ _ _ _ => rfl, fun _ _ _ _ => rfl⟩
  · intro env F lf dirs cache pkg h
    cases lf with
    | malformed => exact absurd rfl h
    | absent => rfl
    | good d => rfl
  · intro env F lf dirs cache arg h
    cases lf with
    | malformed => exact absurd rfl h
    | absent => rfl
    | good d => rfl
  · intro env F lf dirs cache h
    cases lf with
    | malformed => exact absurd rfl h
    | absent => rfl
    | good d => rfl

/-- Witness for claim C8 (amended) at concrete inputs. -/
theorem exit_codes_amended_witness :
    (updateCmd envNone 1 LockFile.absent [] [] "x").1 = 0 ∧
    (installCmd envNone 1 LockFile.absent [] [] (some "x")).1 = 0 ∧
    (upgradeCmd envNone 1 (LockFile.good [("z", "1.0.0")]) ["z"] []).1 = 0 ∧
    (updateCmd envNone 1 LockFile.malformed [] [] "x").1 = 1 ∧
    (installCmd envNone 1 LockFile.malformed [] [] none).1 = 1 ∧
    (upgradeCmd envNone 1 LockFile.malformed [] []).1 = 1 :=
  ⟨exit_codes_amended.1 envNone 1 LockFile.absent [] [] "x" (by decide),
    exit_codes_amended.2.1 envNone 1 LockFile.absent [] [] (some "x") (by decide),
    exit_codes_amended.2.2.1 envNone 1 (LockFile.good [("z", "1.0.0")]) ["z"] [] (by decide),
    exit_codes_amended.2.2.2.1 envNone 1 [] [] "x",
    exit_codes_amended.2.2.2.2.1 envNone 1 [] [] none,
    exit_codes_amended.2.2.2.2.2 envNone 1 [] []⟩

/-- Claim C9: the install entry point without a package argument, run
against a non-empty lock whose keys are ordinary package names, exits 0
and short-circuits every entry at the lock check: no metadata fetch, no
download, no extraction, and the lock and module directory are left
unchanged. -/
theorem install_all_from_lock_noop :
    ∀ env f deps dirs cache, ¬ deps = [] →
      (∀ kv, kv ∈ deps → (parseSpec (kv.1 ++ "@" ++ kv.2)).1 = kv.1) →
      (installCmd env (f + 1) (LockFile.good deps) dirs cache none).1 = 0 ∧
      (installCmd env (f + 1) (LockFile.good deps) dirs cache none).2.lock = deps ∧
      (installCmd env (f + 1) (LockFile.good deps) dirs cache none).2.metaFetches = [] ∧
      (installCmd env (f + 1) (LockFile.good deps) dirs cache none).2.tarFetches = [] ∧
      (installCmd env (f + 1) (LockFile.good deps) dirs cache none).2.extracted = [] ∧
      (installCmd env (f + 1) (LockFile.good deps) dirs cache none).2.moduleDirs = dirs ∧
      (installCmd env (f + 1) (LockFile.good deps) dirs cache none).2.lockWrites = 0 := by
  intro env f deps dirs cache hne hvalid
  have hlen : ¬ (deps.length = 0) := fun h0 => hne (List.length_eq_zero.mp h0)
  have hfold := foldl_lockHit env f deps (mkSt deps dirs cache)
    (fun kv hkv => ⟨hvalid kv hkv, mem_lookupKey_isSome kv deps hkv⟩)
  have hm : (installCmd env (f + 1) (LockFile.good deps) dirs cache none).2
      = { mkSt deps dirs cache with
          session := deps.foldl (fun ss kv => sessAdd ss kv.1) (mkSt deps dirs cache).session } := by
    show installCmdSt env (f + 1) deps dirs cache none = _
    simp only [installCmdSt]
    rw [if_neg hlen]
    exact hfold
  exact ⟨rfl, by rw [hm]; rfl, by rw [hm]; rfl, by rw [hm]; rfl, by rw [hm]; rfl,
    by rw [hm]; rfl, by rw [hm]; rfl⟩

/-- Witness for claim C9 at a concrete input. -/
theorem install_all_from_lock_noop_witness :
    ¬ ([("a", "1.0.0")] = ([] : List (String × String))) ∧
    (installCmd envNone 1 (LockFile.good [("a", "1.0.0")]) ["a"] [] none).2.lock
      = [("a", "1.0.0")] ∧
    (installCmd envNone 1 (LockFile.good [("a", "1.0.0")]) ["a"] [] none).2.metaFetches = [] :=
  ⟨by decide,
    (install_all_from_lock_noop envNone 0 [("a", "1.0.0")] ["a"] [] (by decide)
      (by intro kv hkv; rw [List.mem_singleton] at hkv; subst hkv; rfl)).2.1,
    (install_all_from_lock_noop envNone 0 [("a", "1.0.0")] ["a"] [] (by decide)
      (by intro kv hkv; rw [List.mem_singleton] at hkv; subst hkv; rfl)).2.2.1⟩

/-- Claim C10: when the lock file is absent, or when deleting the
target empties the dependencies mapping, the keep-set of the prune pass
is empty and every remaining module directory is removed. -/
theorem uninstall_prune_all_when_keep_empty :
    (∀ dirs pkg, (uninstallCmd LockFile.absent dirs pkg).dirs = []) ∧
    (∀ deps dirs pkg, eraseKey deps pkg = [] →
      (uninstallCmd (LockFile.good deps) dirs pkg).dirs = []) := by
  constructor
  · intro dirs pkg
    simp [uninstallCmd, filter_memStr_nil]
  · intro deps dirs pkg h
    simp [uninstallCmd, h, filter_memStr_nil]

/-- Witness for claim C10 at concrete inputs. -/
theorem uninstall_prune_all_when_keep_empty_witness :
    (uninstallCmd LockFile.absent ["x", "y"] "a").dirs = [] ∧
    eraseKey [("a", "1.0.0")] "a" = [] ∧
    (uninstallCmd (LockFile.good [("a", "1.0.0")]) ["x", "y"] "a").dirs = [] :=
  ⟨uninstall_prune_all_when_keep_empty.1 ["x", "y"] "a", by decide,
    uninstall_prune_all_when_keep_empty.2 [("a", "1.0.0")] ["x", "y"] "a" (by decide)⟩

end Ppm
